import Mathlib

/-!
Verification of `src/fastly_realtime/realtime-fastly.py`, a Fastly
service-resolution and real-time streaming aggregator script.

The Python source is shallowly embedded:

* Python strings are `String` (or `List Char` inside the fuzzy-matching
  machinery, where per-character work is done); all service names in play are
  ASCII, and the embedding of `fuzzywuzzy`'s character classes follows the
  ASCII behaviour of the library.
* Python dicts keyed by strings are insertion-ordered association lists
  `List (String × α)`, mirroring dict iteration order.
* Python floats inside `fuzzywuzzy` are modelled exactly by rationals; the
  scores arising here are ratios of small integers scaled by the literal
  constants 0.9, 0.95, 0.6, 1.5, 8 and 0.995, all exactly representable, and
  `round` is Python's round-half-to-even.
* Fallible operations return `Option`/`Except`; exceptions that the script
  catches are modelled by the `none`/`error` branches of those types.
-/

namespace Fastly

/-! ### fuzzywuzzy: utils.full_process (StringProcessor) -/

/-- Characters kept by the regex `\W` replacement in
`StringProcessor.replace_non_letters_non_numbers_with_whitespace`
(ASCII word characters: letters, digits, underscore). -/
def isWordChar (c : Char) : Bool := c.isAlphanum || c == '_'

/-- Python `str.strip()` on strings whose only whitespace is `' '` (the only
whitespace `full_process` can leave behind, since every non-word character has
been replaced by a space). -/
def stripSpaces (s : List Char) : List Char :=
  ((s.dropWhile (· == ' ')).reverse.dropWhile (· == ' ')).reverse

/-- Model of `fuzzywuzzy.utils.full_process`: replace non-word characters with spaces,
lowercase, strip. -/
def full_process (s : List Char) : List Char :=
  stripSpaces ((s.map (fun c => if isWordChar c then c else ' ')).map Char.toLower)

/-- Python `str.split()` (split on runs of spaces, dropping empty tokens);
accumulator variant. -/
def splitGo : List Char → List Char → List (List Char)
  | [], cur => if cur.isEmpty then [] else [cur.reverse]
  | c :: rest, cur =>
    if c == ' ' then (if cur.isEmpty then splitGo rest [] else cur.reverse :: splitGo rest [])
    else splitGo rest (c :: cur)

/-- Python `str.split()` on the space-only alphabet. -/
def splitTokens (s : List Char) : List (List Char) := splitGo s []

/-- Python `" ".join(tokens)`. -/
def joinSpace : List (List Char) → List Char
  | [] => []
  | [t] => t
  | t :: ts => t ++ ' ' :: joinSpace ts

/-- Python string `<` (lexicographic by code point). -/
def lexLt : List Char → List Char → Bool
  | [], [] => false
  | [], _ :: _ => true
  | _ :: _, [] => false
  | a :: as, b :: bs => if a < b then true else if b < a then false else lexLt as bs

/-- Insertion step of a stable ascending sort by `lexLt` (Python `sorted`). -/
def insertTok (x : List Char) : List (List Char) → List (List Char)
  | [] => [x]
  | y :: ys => if lexLt x y then x :: y :: ys else y :: insertTok x ys

/-- Python `sorted(tokens)`. -/
def sortToks (l : List (List Char)) : List (List Char) := l.foldr insertTok []

/-- Python `set(tokens)` followed by deterministic use: the distinct elements
in first-occurrence order (every later use sorts them, so order is irrelevant
beyond determinism). -/
def dedupToks (l : List (List Char)) : List (List Char) :=
  l.foldl (fun acc x => if acc.contains x then acc else acc ++ [x]) []

/-! ### difflib.SequenceMatcher (as used by fuzzywuzzy)

All strings scored here are far below difflib's autojunk limit of 200
characters, so the junk machinery never fires; with no junk the two
junk-adjacent extension loops of `find_longest_match` are no-ops (any
extension would contradict maximality of the block found by the main loop)
and are omitted. -/

/-- Model of `b2j[c]` in `difflib.SequenceMatcher`: ascending indices of `c` in `b`. -/
def indicesOf (b : List Char) (c : Char) : List Nat :=
  (List.range b.length).filter (fun j => b.getD j ' ' == c)

/-- Model of `j2len.get(j, 0)` on the association-list model of difflib's dict. -/
def j2get (m : List (Nat × Nat)) (j : Nat) : Nat :=
  ((m.find? (fun p => p.1 == j)).map (fun p => p.2)).getD 0

/-- One row (fixed `i`) of `find_longest_match`'s main loop: fold over the
admissible `j` positions, building the new `j2len` and updating the best
block under the strict `k > bestsize` test (earliest maximal block wins).
Python's `j2len.get(j-1, 0)` at `j = 0` looks up key `-1`, always absent,
hence the `j == 0` case. -/
def flmRow (i : Nat) (js : List Nat) (old : List (Nat × Nat))
    (best : Nat × Nat × Nat) : List (Nat × Nat) × (Nat × Nat × Nat) :=
  js.foldl
    (fun acc j =>
      let k := if j == 0 then 1 else j2get old (j - 1) + 1
      let nw := (j, k) :: acc.1
      if acc.2.2.2 < k then (nw, (i - (k - 1), j - (k - 1), k)) else (nw, acc.2))
    ([], best)

/-- The outer `for i in range(alo, ahi)` loop of `find_longest_match`. -/
def flmRows (a b : List Char) (blo bhi : Nat) :
    List Nat → List (Nat × Nat) → (Nat × Nat × Nat) → (Nat × Nat × Nat)
  | [], _, best => best
  | i :: is, old, best =>
    let js := (indicesOf b (a.getD i ' ')).filter
      (fun j => decide (blo ≤ j) && decide (j < bhi))
    let st := flmRow i js old best
    flmRows a b blo bhi is st.1 st.2

/-- Model of `SequenceMatcher.find_longest_match(alo, ahi, blo, bhi)` (no junk). -/
def find_longest_match (a b : List Char) (alo ahi blo bhi : Nat) : Nat × Nat × Nat :=
  flmRows a b blo bhi (List.range' alo (ahi - alo)) [] (alo, blo, 0)

/-- The queue-driven recursion of `get_matching_blocks`, run on fuel (each
window with a non-trivial match spawns at most two strictly smaller windows,
so `2 * (|a| + |b|) + 4` units are never exhausted); processing order is
irrelevant because the blocks are sorted afterwards. -/
def gmbGo (a b : List Char) :
    Nat → List (Nat × Nat × Nat × Nat) → List (Nat × Nat × Nat) → List (Nat × Nat × Nat)
  | 0, _, acc => acc
  | _ + 1, [], acc => acc
  | fuel + 1, (alo, ahi, blo, bhi) :: queue, acc =>
    let blk := find_longest_match a b alo ahi blo bhi
    let i := blk.1
    let j := blk.2.1
    let k := blk.2.2
    if k == 0 then gmbGo a b fuel queue acc
    else
      let q1 := if decide (alo < i) && decide (blo < j) then [(alo, i, blo, j)] else []
      let q2 := if decide (i + k < ahi) && decide (j + k < bhi) then [(i + k, ahi, j + k, bhi)] else []
      gmbGo a b fuel (q1 ++ q2 ++ queue) ((i, j, k) :: acc)

/-- Lexicographic comparison of block triples (Python tuple `sort`). -/
def blockLe (x y : Nat × Nat × Nat) : Bool :=
  decide (x.1 < y.1) ||
    (x.1 == y.1 && (decide (x.2.1 < y.2.1) || (x.2.1 == y.2.1 && decide (x.2.2 ≤ y.2.2))))

/-- Insertion step of sorting blocks by `blockLe`. -/
def insertBlock (x : Nat × Nat × Nat) : List (Nat × Nat × Nat) → List (Nat × Nat × Nat)
  | [] => [x]
  | y :: ys => if blockLe x y then x :: y :: ys else y :: insertBlock x ys

/-- Python `matching_blocks.sort()`. -/
def sortBlocks (l : List (Nat × Nat × Nat)) : List (Nat × Nat × Nat) := l.foldr insertBlock []

/-- The adjacent-block merging pass of `get_matching_blocks`, starting from
the `(0, 0, 0)` state exactly as difflib does. -/
def mergeAdjGo : Nat × Nat × Nat → List (Nat × Nat × Nat) → List (Nat × Nat × Nat)
  | (i1, j1, k1), [] => if k1 == 0 then [] else [(i1, j1, k1)]
  | (i1, j1, k1), (i2, j2, k2) :: rest =>
    if i1 + k1 == i2 && j1 + k1 == j2 then mergeAdjGo (i1, j1, k1 + k2) rest
    else if k1 == 0 then mergeAdjGo (i2, j2, k2) rest
    else (i1, j1, k1) :: mergeAdjGo (i2, j2, k2) rest

/-- Model of `SequenceMatcher.get_matching_blocks()`: all maximal matching blocks,
sorted, adjacent ones merged, with the terminating sentinel `(la, lb, 0)`. -/
def get_matching_blocks (a b : List Char) : List (Nat × Nat × Nat) :=
  mergeAdjGo (0, 0, 0)
      (sortBlocks (gmbGo a b (2 * (a.length + b.length) + 4) [(0, a.length, 0, b.length)] []))
    ++ [(a.length, b.length, 0)]

/-- An exact fraction with positive denominator, modelling the Python floats
that arise in `fuzzywuzzy` scoring (all exactly representable ratios of small
integers; no normalization is needed because every comparison cross-multiplies
with positive denominators). -/
structure Frac where
  num : Int
  den : Int
  deriving DecidableEq

/-- Exact `<` on fractions with positive denominators. -/
def Frac.lt (a b : Frac) : Bool := decide (a.num * b.den < b.num * a.den)

/-- Python `max` on two floats: the right value wins only when strictly
greater (values compared here are exact, so ties are genuine equalities). -/
def Frac.fmax (a b : Frac) : Frac := if Frac.lt a b then b else a

/-- Exact float multiplication. -/
def Frac.mul (a b : Frac) : Frac := ⟨a.num * b.num, a.den * b.den⟩

/-- Embed an integer score into the float world. -/
def Frac.ofInt (i : Int) : Frac := ⟨i, 1⟩

/-- Multiplication by an integer constant (`100 * ratio`). -/
def Frac.scale (k : Int) (a : Frac) : Frac := ⟨k * a.num, a.den⟩

/-- Python `int(round(x))` (`fuzzywuzzy.utils.intr`): round half to even.
For a fraction with positive denominator, `Int.ediv` is the floor and the
remainder is compared against half the denominator. -/
def pyRound (q : Frac) : Int :=
  let f := q.num.ediv q.den
  let rem := q.num - f * q.den
  if 2 * rem < q.den then f
  else if q.den < 2 * rem then f + 1
  else if f % 2 == 0 then f else f + 1

/-- Model of `SequenceMatcher.ratio()`: `2 * matches / (la + lb)`, and `1.0` on two
empty strings. -/
def ratioQ (a b : List Char) : Frac :=
  let m : Nat := ((get_matching_blocks a b).map (fun t => t.2.2)).sum
  if a.length + b.length == 0 then ⟨1, 1⟩
  else ⟨2 * (m : Int), ((a.length + b.length : Nat) : Int)⟩

/-- Model of `fuzz.ratio`: `utils.intr(100 * SequenceMatcher.ratio())`. -/
def fuzzRatio (a b : List Char) : Int := pyRound (Frac.scale 100 (ratioQ a b))

/-- Python `max` over a non-empty float list (`[]` never occurs: the block
list always holds the sentinel). -/
def maxQ : List Frac → Frac
  | [] => ⟨0, 1⟩
  | x :: xs => xs.foldl Frac.fmax x

/-- Model of `fuzz.partial_ratio`: align the shorter string against same-length
substrings of the longer one, one per matching block, returning 100 early
when a ratio exceeds 0.995. -/
def partRatio (s1 s2 : List Char) : Int :=
  let sh := if s1.length ≤ s2.length then s1 else s2
  let lo := if s1.length ≤ s2.length then s2 else s1
  let scores := (get_matching_blocks sh lo).map (fun blk =>
    ratioQ sh ((lo.drop (blk.2.1 - blk.1)).take sh.length))
  if scores.any (fun r => Frac.lt ⟨199, 200⟩ r) then 100
  else pyRound (Frac.scale 100 (maxQ scores))

/-- Model of `fuzz._process_and_sort` with `full_process=False` (as `fuzz.WRatio`
calls it on already-processed strings): split, sort, rejoin. -/
def processAndSort (s : List Char) : List Char := joinSpace (sortToks (splitTokens s))

/-- Model of `fuzz.token_sort_ratio(s1, s2, full_process=False)`. -/
def tokenSortRatio (s1 s2 : List Char) : Int :=
  fuzzRatio (processAndSort s1) (processAndSort s2)

/-- Model of `fuzz.partial_token_sort_ratio(s1, s2, full_process=False)`. -/
def partTokenSortRatio (s1 s2 : List Char) : Int :=
  partRatio (processAndSort s1) (processAndSort s2)

/-- Model of `fuzz._token_set` preprocessing with `full_process=False`: the sorted
intersection string and the two combined strings. -/
def tokenSetParts (s1 s2 : List Char) : List Char × List Char × List Char :=
  let t1 := dedupToks (splitTokens s1)
  let t2 := dedupToks (splitTokens s2)
  let sect := joinSpace (sortToks (t1.filter (fun t => t2.contains t)))
  let c12 := stripSpaces (sect ++ ' ' :: joinSpace (sortToks (t1.filter (fun t => !t2.contains t))))
  let c21 := stripSpaces (sect ++ ' ' :: joinSpace (sortToks (t2.filter (fun t => !t1.contains t))))
  (stripSpaces sect, c12, c21)

/-- Model of `fuzz.token_set_ratio(s1, s2, full_process=False)`. -/
def tokenSetRatio (s1 s2 : List Char) : Int :=
  let p := tokenSetParts s1 s2
  max (max (fuzzRatio p.1 p.2.1) (fuzzRatio p.1 p.2.2)) (fuzzRatio p.2.1 p.2.2)

/-- Model of `fuzz.partial_token_set_ratio(s1, s2, full_process=False)`. -/
def partTokenSetRatio (s1 s2 : List Char) : Int :=
  let p := tokenSetParts s1 s2
  max (max (partRatio p.1 p.2.1) (partRatio p.1 p.2.2)) (partRatio p.2.1 p.2.2)

/-- Model of `fuzz.WRatio`: the weighted combination of the sub-scorers, with the
length-ratio heuristics and the 0.95/0.9/0.6 scalings of the library. -/
def WRatio (s1 s2 : List Char) : Int :=
  let p1 := full_process s1
  let p2 := full_process s2
  if p1.length == 0 || p2.length == 0 then 0
  else
    let base := Frac.ofInt (fuzzRatio p1 p2)
    let lenr : Frac := ⟨((max p1.length p2.length : Nat) : Int), ((min p1.length p2.length : Nat) : Int)⟩
    if Frac.lt lenr ⟨3, 2⟩ then
      pyRound (Frac.fmax base (Frac.fmax
        (Frac.mul (Frac.ofInt (tokenSortRatio p1 p2)) ⟨19, 20⟩)
        (Frac.mul (Frac.ofInt (tokenSetRatio p1 p2)) ⟨19, 20⟩)))
    else
      let pScale : Frac := if Frac.lt ⟨8, 1⟩ lenr then ⟨3, 5⟩ else ⟨9, 10⟩
      pyRound (Frac.fmax base (Frac.fmax
        (Frac.mul (Frac.ofInt (partRatio p1 p2)) pScale)
        (Frac.fmax
          (Frac.mul (Frac.mul (Frac.ofInt (partTokenSortRatio p1 p2)) ⟨19, 20⟩) pScale)
          (Frac.mul (Frac.mul (Frac.ofInt (partTokenSetRatio p1 p2)) ⟨19, 20⟩) pScale))))

/-! ### realtime-fastly.py constants and the environment filter -/

/-- Line 24 of the script; defined there but never read by any function. -/
def FUZZY_MATCH_THRESHOLD : Int := 80

/-- Python `str.startswith(p)`, on the character lists underlying the two
strings. -/
def pyStartsWith (s p : String) : Bool := p.data.isPrefixOf s.data

/-- Model of `filter_services_by_environment` (lines 142-152): production keeps every
name not starting with `"dev."` or `"qa."`; other environments keep names
starting with `"<env>."` or `"<env>-"`. -/
def filter_services_by_environment (environment : String)
    (services : List (String × String)) : List (String × String) :=
  if environment = "production" then
    services.filter (fun p => !pyStartsWith p.1 "dev." && !pyStartsWith p.1 "qa.")
  else
    services.filter (fun p =>
      pyStartsWith p.1 (environment ++ ".") || pyStartsWith p.1 (environment ++ "-"))

/-! ### process.extract and get_best_match -/

/-- Model of `process.extractWithoutOrder(query, choices, full_process, WRatio, 0)`:
score every choice (the default `score_cutoff` of 0 never drops any, since
`WRatio` is non-negative). -/
def extractScored (query : List Char) (choices : List String) : List (String × Int) :=
  let pq := full_process query
  choices.map (fun c => (c, WRatio pq (full_process c.data)))

/-- Insertion step of `heapq.nlargest`'s stable descending order. -/
def insertDesc (x : String × Int) : List (String × Int) → List (String × Int)
  | [] => [x]
  | y :: ys => if y.2 < x.2 then x :: y :: ys else y :: insertDesc x ys

/-- Stable sort by score, descending (ties keep original order), as
`heapq.nlargest` orders its output. -/
def sortDesc (l : List (String × Int)) : List (String × Int) :=
  l.foldl (fun acc x => insertDesc x acc) []

/-- Model of `process.extract(query, choices, scorer=fuzz.WRatio)` with the default
`limit=5`. -/
def pyExtract (query : List Char) (choices : List String) : List (String × Int) :=
  (sortDesc (extractScored query choices)).take 5

/-- Python `max(results, key=lambda x: x[1])`: first element attaining the
maximal score (strict comparison keeps the earlier element on ties), `none`
on the empty list, where Python would raise. -/
def pyMaxByScore : List (String × Int) → Option (String × Int)
  | [] => none
  | x :: xs => some (xs.foldl (fun b y => if b.2 < y.2 then y else b) x)

/-- Model of `get_best_match` (lines 165-180).  For production, first scan the
filtered keys for one starting with `service_name + "."`; otherwise fall back
to fuzzy matching, raising `ValueError` (modelled as `Except.error` carrying
the message, quotation marks elided) only when `process.extract` produced no
results. -/
def get_best_match (service_name : String) (filtered_services : List (String × String))
    (environment : String) : Except String String :=
  match (if environment = "production" then
      (filtered_services.map Prod.fst).find? (fun n => pyStartsWith n (service_name ++ "."))
    else none) with
  | some n => Except.ok n
  | none =>
    match pyMaxByScore (pyExtract service_name.data (filtered_services.map Prod.fst)) with
    | none => Except.error ("No services found that match " ++ service_name ++
        " in the " ++ environment ++ " environment.")
    | some best => Except.ok best.1

/-! ### Directory cache (load_cache / save_cache, lines 37-58)

The on-disk JSON file is modelled by an inductive `Json` value; a missing
file is `none`.  `json.load` failures, key errors and
`datetime.fromisoformat` failures are the exceptions the `try` blocks catch,
modelled by the `none` branches.  An ISO-8601 timestamp string is abstracted
by the instant it denotes (constructor `Json.time`, in seconds); a string
that does not parse as a timestamp is `Json.str`. -/

inductive Json where
  | null
  | bool (b : Bool)
  | num (n : Int)
  | str (s : String)
  | time (t : Int)
  | arr (elems : List Json)
  | obj (fields : List (String × Json))

/-- Lookup in a parsed JSON object: Python keeps the last occurrence of a
duplicated key. -/
def jsonLookup (fields : List (String × Json)) (k : String) : Option Json :=
  (fields.reverse.find? (fun p => p.1 == k)).map (fun p => p.2)

/-- Python truthiness of a parsed JSON value (`if cached_services:`). -/
def jsonTruthy : Json → Bool
  | .null => false
  | .bool b => b
  | .num n => n != 0
  | .str s => !s.isEmpty
  | .time _ => true
  | .arr l => !l.isEmpty
  | .obj l => !l.isEmpty

/-- Model of `datetime.fromisoformat(cache_data['timestamp'])`: succeeds only on a
dict whose `timestamp` field is a parseable timestamp; any other shape raises
(a `TypeError`/`KeyError`/`ValueError` caught by `load_cache`). -/
def cacheTimestamp : Json → Option Int
  | .obj fields =>
    match jsonLookup fields "timestamp" with
    | some (.time t) => some t
    | _ => none
  | _ => none

/-- Model of `cache_data['data']` (raises `KeyError` when absent, caught by
`load_cache`). -/
def cacheData : Json → Option Json
  | .obj fields => jsonLookup fields "data"
  | _ => none

/-- Line 22 of the script. -/
def CACHE_EXPIRY_HOURS : Int := 24

/-- The TTL of `timedelta(hours=CACHE_EXPIRY_HOURS)`, in seconds. -/
def cacheExpirySeconds : Int := CACHE_EXPIRY_HOURS * 3600

/-- Model of `load_cache` (lines 37-47): absent file, any parse/shape failure, or a
timestamp at least 24 hours old all yield `None`; otherwise the stored
`data` field is returned. `now` is `datetime.utcnow()` in seconds. -/
def load_cache (file : Option Json) (now : Int) : Option Json :=
  match file with
  | none => none
  | some j =>
    match cacheTimestamp j with
    | none => none
    | some ts => if now - ts < cacheExpirySeconds then cacheData j else none

/-- Model of `save_cache` (lines 49-58): the file content written on a successful
save, `{'timestamp': utcnow().isoformat(), 'data': data}`. -/
def save_cache (now : Int) (data : Json) : Json :=
  Json.obj [("timestamp", Json.time now), ("data", data)]

/-! ### Service directory fetcher (list_services, lines 60-94) -/

/-- One page of `GET /service`: either the request raised
(`requests.exceptions.RequestException`) or returned a JSON array of
services, each contributing its `name` and `id`. -/
inductive PageResp where
  | fail
  | ok (services : List (String × String))

/-- Python dict assignment `all_services[name] = id`: update in place when
the key exists, else append. -/
def dictInsert (d : List (String × String)) (name id : String) : List (String × String) :=
  if d.any (fun p => p.1 == name) then
    d.map (fun p => if p.1 == name then (name, id) else p)
  else d ++ [(name, id)]

/-- The pagination loop of `list_services`: accumulate pages until a request
fails (partial result, exception caught at line 90) or a page comes back
empty (`if not services: break`).  The unbounded `while True` is modelled on
the finite list of responses the provider would serve; pages beyond the list
are empty. -/
def fetchPages : List PageResp → List (String × String) → List (String × String)
  | [], acc => acc
  | .fail :: _, acc => acc
  | .ok [] :: _, acc => acc
  | .ok (s :: ss) :: rest, acc =>
    fetchPages rest ((s :: ss).foldl (fun a p => dictInsert a p.1 p.2) acc)

/-- The fetched directory as the JSON value `json.dump` would persist. -/
def dirToJson (d : List (String × String)) : Json :=
  Json.obj (d.map (fun p => (p.1, Json.str p.2)))

/-- Model of `list_services` (lines 60-94): serve a truthy cache hit unchanged;
otherwise fetch page by page and unconditionally `save_cache` the result
(line 93), complete or partial.  Returns the directory together with the
cache file written (`none` = no write happened). -/
def list_services (file : Option Json) (now : Int) (pages : List PageResp) :
    Json × Option Json :=
  match load_cache file now with
  | some cached =>
    if jsonTruthy cached then (cached, none)
    else
      let d := dirToJson (fetchPages pages [])
      (d, some (save_cache now d))
  | none =>
    let d := dirToJson (fetchPages pages [])
    (d, some (save_cache now d))

/-! ### Interval aggregator (stream_real_time_data, lines 314-360)

The wall clock is abstracted by the tick counter: the `while utcnow() <
end_time` loop with its fixed `time.sleep(wait_interval)` performs
`duration / wait_interval` iterations, the `budget`.  Each tick's
`get_real_time_data` outcome is an `Option (List DataPoint)` drawn from the
`polls` oracle: `none` models the request failing (the function returns
`None`, line 125), `some l` models the returned `Data` array.  Slack
emissions are collected in an observable trace; `update_slack_message`
failures are caught inside that function (lines 207-208), so an emission
records the attempt. -/

/-- The closed field set `COMMON_FIELDS` (line 31). -/
inductive Field where
  | status_5xx
  | requests
  | hits
  | miss
  | all_pass_requests
  deriving DecidableEq

/-- Line 31 of the script, as the iteration order of the accumulation loops. -/
def COMMON_FIELDS : List Field := [.status_5xx, .requests, .hits, .miss, .all_pass_requests]

/-- A counter snapshot (`total_stats`, `interval_stats`, `previous_stats`):
a value for each tracked field. -/
def Snapshot := Field → Int

/-- Python `{field: 0 for field in COMMON_FIELDS}`. -/
def zeroSnap : Snapshot := fun _ => 0

/-- One element of the `Data` array: its `aggregated` counters, `some v` when
the tracked field is present in the dict (`if common_field in
data_point['aggregated']`). -/
structure DataPoint where
  aggregated : Field → Option Int

/-- The per-tick accumulation (lines 333-337): for every data point, every
tracked field present contributes to the interval snapshot. -/
def computeInterval (stats : List DataPoint) : Snapshot :=
  fun f => stats.foldl (fun a dp => a + ((dp.aggregated f).getD 0)) 0

/-- One observable emission towards the Slack sink. -/
inductive Emission where
  | initial (total : Snapshot)
  | update (tick : Nat) (total interval previous : Snapshot)
  | final (total previous : Snapshot)

/-- Outcome of the polling loop (the state inside the `try`). -/
structure StreamResult where
  trace : List Emission
  intervals : List Snapshot
  total : Snapshot
  previous : Snapshot
  failed : Bool

/-- The polling loop (lines 326-350).  `remaining` is the residual tick
budget; `not stats_data` is true both for a failed request (`None`) and for
an empty `Data` array, and aborts the loop (`return`, line 331) before any
accumulation.  On a processed tick the interval is accumulated into the
running total; with a sink configured an update is emitted and the previous
snapshot rotates (line 345), otherwise the interval is printed (trace
untouched, previous stays). -/
def streamLoop (polls : Nat → Option (List DataPoint)) (slackChannel : Bool) :
    Nat → Nat → Snapshot → Snapshot → List Emission → List Snapshot → StreamResult
  | _, 0, total, previous, trace, ivs =>
    ⟨trace, ivs, total, previous, false⟩
  | tick, r + 1, total, previous, trace, ivs =>
    match polls tick with
    | none => ⟨trace, ivs, total, previous, true⟩
    | some [] => ⟨trace, ivs, total, previous, true⟩
    | some (dp :: ds) =>
      let interval := computeInterval (dp :: ds)
      let total2 : Snapshot := fun f => total f + interval f
      match slackChannel with
      | true =>
        streamLoop polls slackChannel (tick + 1) r total2 interval
          (trace ++ [Emission.update tick total2 interval previous]) (ivs ++ [interval])
      | false =>
        streamLoop polls slackChannel (tick + 1) r total2 previous trace (ivs ++ [interval])

/-- The Python exception escaping `stream_real_time_data` when the initial
`send_slack_message` fails: `send_slack_message` catches `SlackApiError` and
returns `None` (line 198), and the caller's tuple unpacking `channel,
slack_ts = None` (line 323) raises `TypeError`. -/
inductive PyErr where
  | typeError
  deriving DecidableEq

/-- Model of `stream_real_time_data` (lines 314-360).  `sendOk` tells whether the
initial `send_slack_message` returned a `(channel, ts)` pair; when it
returned `None` the tuple unpacking raises before the `try`, so neither the
loop nor the `finally` teardown runs.  With a sink opened, the `finally`
block always appends the one final summary update (running totals versus the
last previous-interval snapshot). -/
def stream_real_time_data (budget : Nat) (polls : Nat → Option (List DataPoint))
    (slackChannel : Bool) (sendOk : Bool) : Except PyErr StreamResult :=
  if slackChannel then
    if sendOk then
      let r := streamLoop polls true 0 budget zeroSnap zeroSnap [Emission.initial zeroSnap] []
      Except.ok { r with trace := r.trace ++ [Emission.final r.total r.previous] }
    else Except.error PyErr.typeError
  else
    Except.ok (streamLoop polls false 0 budget zeroSnap zeroSnap [] [])

/-- Recognise the teardown emission. -/
def isFinal : Emission → Bool
  | .final _ _ => true
  | _ => false

/-- The tick of an interval update, `none` for other emissions. -/
def updateTick : Emission → Option Nat
  | .update t _ _ _ => some t
  | _ => none

/-- The non-negativity precondition of the monotonicity claim: every counter
value delivered by any successful poll is non-negative. -/
def pollsNonneg (polls : Nat → Option (List DataPoint)) : Prop :=
  ∀ t l, polls t = some l → ∀ dp ∈ l, ∀ f v, dp.aggregated f = some v → 0 ≤ v

/-! ## Theorems -/

/-- C1: for every directory and environment in {production, dev, qa},
`filter_services_by_environment` returns a sub-mapping of the directory
preserving each retained name's id: production retains exactly the entries
whose name starts with neither `"dev."` nor `"qa."`, while dev and qa retain
exactly the entries whose name starts with `"<e>."` or `"<e>-"`. -/
theorem C1_environment_filter (services : List (String × String)) (n i : String) :
    ((n, i) ∈ filter_services_by_environment "production" services ↔
      (n, i) ∈ services ∧ pyStartsWith n "dev." = false ∧ pyStartsWith n "qa." = false) ∧
    (∀ e, e = "dev" ∨ e = "qa" →
      ((n, i) ∈ filter_services_by_environment e services ↔
        (n, i) ∈ services ∧
          (pyStartsWith n (e ++ ".") = true ∨ pyStartsWith n (e ++ "-") = true))) ∧
    (∀ e, (filter_services_by_environment e services).Sublist services) := by
  refine ⟨?_, ?_, ?_⟩
  · simp [filter_services_by_environment, List.mem_filter]
  · intro e he
    rcases he with rfl | rfl <;>
      simp [filter_services_by_environment, List.mem_filter]
  · intro e
    unfold filter_services_by_environment
    split <;> exact List.filter_sublist _

/-- Witness for C1 at a concrete directory: the dev filter keeps a
`"dev."`-prefixed entry, and the production filter drops it. -/
theorem C1_environment_filter_witness :
    ("dev.a", "1") ∈ filter_services_by_environment "dev" [("dev.a", "1")] ∧
    ¬ ("dev.a", "1") ∈ filter_services_by_environment "production" [("dev.a", "1")] := by
  constructor
  · exact ((C1_environment_filter [("dev.a", "1")] "dev.a" "1").2.1 "dev"
      (Or.inl rfl)).mpr ⟨by simp, Or.inl (by decide)⟩
  · intro hmem
    have h := ((C1_environment_filter [("dev.a", "1")] "dev.a" "1").1).mp hmem
    have : pyStartsWith "dev.a" "dev." = true := by decide
    simp [this] at h

/-- C5: `load_cache` yields absent on a missing file, on any malformed file
(any shape on which the parse or the timestamp extraction raises, which the
`try` swallows), and on any cache at least 24 hours old; a stale entry is
never returned. -/
theorem C5_load_cache_absent (now : Int) :
    load_cache none now = none ∧
    (∀ j, cacheTimestamp j = none → load_cache (some j) now = none) ∧
    (∀ j ts, cacheTimestamp j = some ts → cacheExpirySeconds ≤ now - ts →
      load_cache (some j) now = none) := by
  refine ⟨rfl, ?_, ?_⟩
  · intro j h
    simp [load_cache, h]
  · intro j ts h1 h2
    simp only [load_cache, h1]
    rw [if_neg (by omega)]

/-- Witness for C5: a malformed file (a bare number) and a one-week-old
well-formed cache both load as absent. -/
theorem C5_load_cache_absent_witness :
    load_cache (some (Json.num 3)) 0 = none ∧
    load_cache (some (save_cache 0 (Json.obj [("a", Json.str "b")]))) 604800 = none := by
  constructor
  · exact (C5_load_cache_absent 0).2.1 (Json.num 3) rfl
  · exact (C5_load_cache_absent 604800).2.2
      (save_cache 0 (Json.obj [("a", Json.str "b")])) 0 rfl (by decide)

/-- C9: saving a directory and loading it back within the 24-hour TTL
returns an equal mapping. -/
theorem C9_cache_round_trip (now now2 : Int) (D : List (String × String))
    (h : now2 - now < cacheExpirySeconds) :
    load_cache (some (save_cache now (dirToJson D))) now2 = some (dirToJson D) := by
  simp only [load_cache, save_cache, cacheTimestamp, cacheData, jsonLookup]
  simp only [List.reverse_cons, List.reverse_nil, List.nil_append, List.cons_append,
    List.find?]
  rw [show (("data" == "timestamp")) = false from by decide,
    show (("timestamp" == "timestamp")) = true from by decide]
  simp only [Option.map_some']
  rw [if_pos h]
  rw [show (("data" == "data")) = true from by decide]
  rfl

/-- Witness for C9 at a concrete directory and a one-hour-later load. -/
theorem C9_cache_round_trip_witness :
    load_cache (some (save_cache 100 (dirToJson [("svc", "id1")]))) 3700
      = some (dirToJson [("svc", "id1")]) :=
  C9_cache_round_trip 100 3700 [("svc", "id1")] (by decide)

/-- The pagination loop on a run of non-empty successful pages followed by a
failing request accumulates exactly those pages. -/
theorem fetchPages_ok_then_fail (rest : List PageResp) :
    ∀ (ps : List (List (String × String))) (acc : List (String × String)),
      (∀ p ∈ ps, p ≠ []) →
      fetchPages (ps.map PageResp.ok ++ PageResp.fail :: rest) acc
        = ps.foldl (fun a p => p.foldl (fun a2 q => dictInsert a2 q.1 q.2) a) acc := by
  intro ps
  induction ps with
  | nil => intro acc _; rfl
  | cons p ps ih =>
    intro acc h
    match p, h p (by simp) with
    | q :: qs, _ =>
      simp only [List.map_cons, List.cons_append, List.foldl_cons]
      rw [fetchPages]
      exact ih _ (fun x hx => h x (by simp [hx]))

/-- C6: on a cache miss, `list_services` always writes the returned
directory through `save_cache` before returning (complete or partial), and a
fetch whose request fails after a run of successful pages returns exactly
the entries accumulated from those earlier pages. -/
theorem C6_partial_fetch_cached (file : Option Json) (now : Int)
    (ps : List (List (String × String))) (rest : List PageResp)
    (hmiss : load_cache file now = none) (hne : ∀ p ∈ ps, p ≠ []) :
    (∀ pages, (list_services file now pages).2
        = some (save_cache now (list_services file now pages).1)) ∧
    (list_services file now (ps.map PageResp.ok ++ PageResp.fail :: rest)).1
      = dirToJson (ps.foldl (fun a p => p.foldl (fun a2 q => dictInsert a2 q.1 q.2) a) []) := by
  constructor
  · intro pages
    simp [list_services, hmiss]
  · simp [list_services, hmiss, fetchPages_ok_then_fail rest ps [] hne]

/-- Membership through one descending insertion. -/
theorem mem_insertDesc (x y : String × Int) :
    ∀ l : List (String × Int), y ∈ insertDesc x l → y = x ∨ y ∈ l := by
  intro l
  induction l with
  | nil =>
    intro h
    rw [insertDesc] at h
    exact Or.inl (by simpa using h)
  | cons z zs ih =>
    intro h
    rw [insertDesc] at h
    split at h
    · rcases List.mem_cons.mp h with h2 | h2
      · exact Or.inl h2
      · exact Or.inr h2
    · rcases List.mem_cons.mp h with h2 | h2
      · exact Or.inr (by simp [h2])
      · rcases ih h2 with h3 | h3
        · exact Or.inl h3
        · exact Or.inr (List.mem_cons_of_mem _ h3)

/-- Membership through the descending insertion sort. -/
theorem mem_sortDescAux (y : String × Int) :
    ∀ (l acc : List (String × Int)),
      y ∈ l.foldl (fun a x => insertDesc x a) acc → y ∈ acc ∨ y ∈ l := by
  intro l
  induction l with
  | nil => intro acc h; exact Or.inl h
  | cons x xs ih =>
    intro acc h
    rcases ih (insertDesc x acc) h with h2 | h2
    · rcases mem_insertDesc x y acc h2 with h3 | h3
      · exact Or.inr (by simp [h3])
      · exact Or.inl h3
    · exact Or.inr (List.mem_cons_of_mem _ h2)

/-- A descending insertion adds exactly one element. -/
theorem insertDesc_length (x : String × Int) :
    ∀ l : List (String × Int), (insertDesc x l).length = l.length + 1 := by
  intro l
  induction l with
  | nil => rfl
  | cons z zs ih =>
    rw [insertDesc]
    split
    · simp
    · simp [ih]

/-- The descending sort preserves length. -/
theorem sortDescAux_length :
    ∀ (l acc : List (String × Int)),
      (l.foldl (fun a x => insertDesc x a) acc).length = acc.length + l.length := by
  intro l
  induction l with
  | nil => intro acc; simp
  | cons x xs ih =>
    intro acc
    rw [List.foldl_cons, ih (insertDesc x acc), insertDesc_length, List.length_cons]
    omega

/-- The descending sort is empty exactly on the empty input. -/
theorem sortDesc_eq_nil_iff (l : List (String × Int)) : sortDesc l = [] ↔ l = [] := by
  constructor
  · intro h
    have h2 := congrArg List.length h
    rw [sortDesc] at h2
    rw [sortDescAux_length l []] at h2
    simpa using List.length_eq_zero.mp (by simpa using h2)
  · rintro rfl
    rfl

/-- Lemma: `process.extract` returns no results exactly when there are no
candidates. -/
theorem pyExtract_eq_nil_iff (q : List Char) (choices : List String) :
    pyExtract q choices = [] ↔ choices = [] := by
  constructor
  · intro h
    rw [pyExtract] at h
    have h2 : sortDesc (extractScored q choices) = [] := by
      cases hs : sortDesc (extractScored q choices) with
      | nil => rfl
      | cons a l => rw [hs] at h; simp at h
    have h3 := (sortDesc_eq_nil_iff _).mp h2
    rw [extractScored] at h3
    exact List.map_eq_nil_iff.mp h3
  · rintro rfl
    rfl

/-- Every result of `process.extract` is one of the candidates. -/
theorem pyExtract_mem (q : List Char) (choices : List String) (b : String × Int) :
    b ∈ pyExtract q choices → b.1 ∈ choices := by
  intro h
  have h2 : b ∈ sortDesc (extractScored q choices) := List.take_subset 5 _ h
  rcases mem_sortDescAux b (extractScored q choices) [] h2 with h3 | h3
  · simp at h3
  · rw [extractScored] at h3
    rcases List.mem_map.mp h3 with ⟨c, hc, hcb⟩
    rw [← hcb]
    exact hc

/-- Python `max` on a list returns one of its elements. -/
theorem pyMaxByScore_mem (l : List (String × Int)) (b : String × Int) :
    pyMaxByScore l = some b → b ∈ l := by
  cases l with
  | nil => intro h; cases h
  | cons x xs =>
    intro h
    rw [pyMaxByScore] at h
    have h2 : ∀ (ys : List (String × Int)) (a : String × Int),
        ys.foldl (fun b2 y => if b2.2 < y.2 then y else b2) a = a ∨
          ys.foldl (fun b2 y => if b2.2 < y.2 then y else b2) a ∈ ys := by
      intro ys
      induction ys with
      | nil => intro a; exact Or.inl rfl
      | cons y ys2 ih =>
        intro a
        rw [List.foldl_cons]
        rcases ih (if a.2 < y.2 then y else a) with h3 | h3
        · rw [h3]
          split
          · exact Or.inr (by simp)
          · exact Or.inl rfl
        · exact Or.inr (List.mem_cons_of_mem _ h3)
    have hb : b = xs.foldl (fun b2 y => if b2.2 < y.2 then y else b2) x := by
      injection h with h
      exact h.symm
    rcases h2 xs x with h3 | h3
    · rw [hb, h3]; simp
    · rw [hb]; exact List.mem_cons_of_mem _ h3

/-- Python `max` fails only on the empty list. -/
theorem pyMaxByScore_eq_none_iff (l : List (String × Int)) :
    pyMaxByScore l = none ↔ l = [] := by
  cases l <;> simp [pyMaxByScore]

/-- C2 (amended): `get_best_match` fails exactly when the filtered directory
is empty — no score threshold is enforced anywhere — and whenever it does not
fail it returns a candidate name from the filtered directory. -/
theorem C2_resolver_fails_iff_empty (name env : String)
    (filtered : List (String × String)) :
    ((∃ msg, get_best_match name filtered env = Except.error msg) ↔ filtered = []) ∧
    (∀ n, get_best_match name filtered env = Except.ok n →
      n ∈ filtered.map Prod.fst) := by
  unfold get_best_match
  cases hfind : (if env = "production" then
      (filtered.map Prod.fst).find? (fun n => pyStartsWith n (name ++ "."))
    else none) with
  | some k =>
    constructor
    · constructor
      · rintro ⟨msg, hmsg⟩
        cases hmsg
      · rintro rfl
        split at hfind
        · cases hfind
        · cases hfind
    · intro n hn
      injection hn with hn
      subst hn
      split at hfind
      · exact List.mem_of_find?_eq_some hfind
      · cases hfind
  | none =>
    cases hm : pyMaxByScore (pyExtract name.data (filtered.map Prod.fst)) with
    | none =>
      have h2 := (pyMaxByScore_eq_none_iff _).mp hm
      have h3 := (pyExtract_eq_nil_iff _ _).mp h2
      constructor
      · constructor
        · intro _
          exact List.map_eq_nil_iff.mp h3
        · intro _
          exact ⟨_, rfl⟩
      · intro n hn
        cases hn
    | some best =>
      constructor
      · constructor
        · rintro ⟨msg, hmsg⟩
          cases hmsg
        · rintro rfl
          simp only [List.map_nil] at hm
          rw [(pyExtract_eq_nil_iff name.data []).mpr rfl] at hm
          cases hm
      · intro n hn
        injection hn with hn
        subst hn
        exact pyExtract_mem _ _ _ (pyMaxByScore_mem _ _ hm)

/-- Witness for C2 (amended): a singleton directory never fails, an empty
one does. -/
theorem C2_resolver_fails_iff_empty_witness :
    "b" ∈ ([("b", "1")].map (Prod.fst (α := String) (β := String))) ∧
    (∃ msg, get_best_match "a" [] "dev" = Except.error msg) := by
  constructor
  · exact (C2_resolver_fails_iff_empty "b" "dev" [("b", "1")]).2 "b" (by rfl)
  · exact ((C2_resolver_fails_iff_empty "a" "dev" []).1).mpr rfl

/-- Counterexample to C2 as stated: with the singleton directory
`{"dev.a": "svc1"}` in environment `dev` and input `"zzzz"`, every
candidate's `WRatio` score is 0, strictly below the (unused) threshold of 80,
yet `get_best_match` does not fail — it returns `"dev.a"`. -/
theorem C2_counterexample :
    get_best_match "zzzz" [("dev.a", "svc1")] "dev" = Except.ok "dev.a" ∧
    extractScored "zzzz".data ["dev.a"] = [("dev.a", 0)] ∧
    (0 : Int) < FUZZY_MATCH_THRESHOLD := by
  refine ⟨by rfl, by decide, by decide⟩

/-- C4: in production, when some filtered key extends the input name by a
dot, `get_best_match` returns the first such key without consulting the
fuzzy scorer; and the concrete Scenario A resolution (filter, then match)
returns `"prod-svc"`. -/
theorem C4_production_prefix_first (name k : String)
    (filtered : List (String × String))
    (h : (filtered.map Prod.fst).find? (fun n => pyStartsWith n (name ++ "."))
      = some k) :
    get_best_match name filtered "production" = Except.ok k ∧
    get_best_match "prod-svc"
        (filter_services_by_environment "production"
          [("prod-svc", "id1"), ("dev.prod-svc", "id2")])
        "production" = Except.ok "prod-svc" := by
  constructor
  · unfold get_best_match
    rw [if_pos rfl, h]
  · rfl

/-- Witness for C4 at a concrete directory with a dotted production key. -/
theorem C4_production_prefix_first_witness :
    get_best_match "svc" [("svc.api", "i1")] "production" = Except.ok "svc.api" :=
  (C4_production_prefix_first "svc" "svc.api" [("svc.api", "i1")] (by decide)).1

/-- Witness for C6: one successful page then a failed request yields that
page's entry, and it is written to the cache. -/
theorem C6_partial_fetch_cached_witness :
    (list_services none 0 [PageResp.ok [("a", "1")], PageResp.fail]).1
        = dirToJson [("a", "1")] ∧
    (list_services none 0 [PageResp.ok [("a", "1")], PageResp.fail]).2
        = some (save_cache 0 (list_services none 0
            [PageResp.ok [("a", "1")], PageResp.fail]).1) := by
  have h := C6_partial_fetch_cached none 0 [[("a", "1")]] [] rfl (by simp)
  exact ⟨h.2, h.1 [PageResp.ok [("a", "1")], PageResp.fail]⟩

/-- C3 (code bug): when a Slack sink is configured and the initial
`send_slack_message` fails, the `None` it returns is unpacked into
`channel, slack_ts`, raising `TypeError` before the `try` block: the loop
never polls, the teardown never runs, and the exception escapes
`stream_real_time_data` — for every budget and every poll oracle. -/
theorem C3_sink_open_failure_typeerror :
    stream_real_time_data 60 (fun _ => some [⟨fun _ => some 1⟩]) true false
      = Except.error PyErr.typeError ∧
    ∀ (budget : Nat) (polls : Nat → Option (List DataPoint)),
      stream_real_time_data budget polls true false = Except.error PyErr.typeError :=
  ⟨rfl, fun _ _ => rfl⟩

/-- After the loop, the running total equals the incoming total plus the sum
of the newly recorded interval snapshots, which extend the incoming list. -/
theorem streamLoop_total_eq_sum (polls : Nat → Option (List DataPoint)) (sc : Bool) :
    ∀ (r tick : Nat) (total prev : Snapshot) (trace : List Emission) (ivs : List Snapshot),
      ∃ nw, (streamLoop polls sc tick r total prev trace ivs).intervals = ivs ++ nw ∧
        ∀ f, (streamLoop polls sc tick r total prev trace ivs).total f
          = total f + (nw.map (fun s => s f)).sum := by
  intro r
  induction r with
  | zero =>
    intro tick total prev trace ivs
    exact ⟨[], by simp [streamLoop], fun f => by simp [streamLoop]⟩
  | succ r ih =>
    intro tick total prev trace ivs
    cases hp : polls tick with
    | none => exact ⟨[], by simp [streamLoop, hp], fun f => by simp [streamLoop, hp]⟩
    | some l =>
      cases l with
      | nil => exact ⟨[], by simp [streamLoop, hp], fun f => by simp [streamLoop, hp]⟩
      | cons dp ds =>
        cases sc with
        | false =>
          obtain ⟨nw, hnw, hsum⟩ := ih (tick + 1)
            (fun f => total f + computeInterval (dp :: ds) f) prev trace
            (ivs ++ [computeInterval (dp :: ds)])
          refine ⟨computeInterval (dp :: ds) :: nw, ?_, ?_⟩
          · simp only [streamLoop, hp, reduceIte]
            rw [hnw]
            simp
          · intro f
            simp only [streamLoop, hp, reduceIte]
            rw [hsum f]
            simp only [List.map_cons, List.sum_cons]
            exact add_assoc _ _ _
        | true =>
          obtain ⟨nw, hnw, hsum⟩ := ih (tick + 1)
            (fun f => total f + computeInterval (dp :: ds) f) (computeInterval (dp :: ds))
            (trace ++ [Emission.update tick
              (fun f => total f + computeInterval (dp :: ds) f)
              (computeInterval (dp :: ds)) prev])
            (ivs ++ [computeInterval (dp :: ds)])
          refine ⟨computeInterval (dp :: ds) :: nw, ?_, ?_⟩
          · simp only [streamLoop, hp, reduceIte]
            rw [hnw]
            simp
          · intro f
            simp only [streamLoop, hp, reduceIte]
            rw [hsum f]
            simp only [List.map_cons, List.sum_cons]
            exact add_assoc _ _ _

/-- An interval computed from a sample of non-negative counters is
non-negative in every field. -/
theorem computeInterval_nonneg (l : List DataPoint)
    (h : ∀ dp ∈ l, ∀ f v, dp.aggregated f = some v → 0 ≤ v) (f : Field) :
    0 ≤ computeInterval l f := by
  have aux : ∀ (l2 : List DataPoint) (a : Int), 0 ≤ a →
      (∀ dp ∈ l2, ∀ f2 v, dp.aggregated f2 = some v → 0 ≤ v) →
      0 ≤ l2.foldl (fun a2 dp => a2 + ((dp.aggregated f).getD 0)) a := by
    intro l2
    induction l2 with
    | nil => intro a ha _; exact ha
    | cons dp ds ih =>
      intro a ha hh
      rw [List.foldl_cons]
      apply ih
      · have h2 : 0 ≤ (dp.aggregated f).getD 0 := by
          cases hv : dp.aggregated f with
          | none => simp
          | some v => simpa using hh dp (by simp) f v hv
        omega
      · intro dp2 hdp2 f2 v hv
        exact hh dp2 (List.mem_cons_of_mem _ hdp2) f2 v hv
  exact aux l 0 le_rfl h

/-- Under non-negative samples, running the loop can only increase the
running total. -/
theorem streamLoop_total_le (polls : Nat → Option (List DataPoint))
    (hnn : pollsNonneg polls) (sc : Bool) (f : Field) :
    ∀ (r tick : Nat) (total prev : Snapshot) (trace : List Emission) (ivs : List Snapshot),
      total f ≤ (streamLoop polls sc tick r total prev trace ivs).total f := by
  intro r
  induction r with
  | zero => intro tick total prev trace ivs; simp [streamLoop]
  | succ r ih =>
    intro tick total prev trace ivs
    cases hp : polls tick with
    | none => simp [streamLoop, hp]
    | some l =>
      cases l with
      | nil => simp [streamLoop, hp]
      | cons dp ds =>
        have hiv : 0 ≤ computeInterval (dp :: ds) f :=
          computeInterval_nonneg _ (hnn tick _ hp) f
        cases sc with
        | false =>
          simp only [streamLoop, hp, reduceIte]
          refine le_trans ?_ (ih (tick + 1)
            (fun f => total f + computeInterval (dp :: ds) f) prev trace
            (ivs ++ [computeInterval (dp :: ds)]))
          omega
        | true =>
          simp only [streamLoop, hp, reduceIte]
          refine le_trans ?_ (ih (tick + 1)
            (fun f => total f + computeInterval (dp :: ds) f) (computeInterval (dp :: ds))
            (trace ++ [Emission.update tick
              (fun f => total f + computeInterval (dp :: ds) f)
              (computeInterval (dp :: ds)) prev])
            (ivs ++ [computeInterval (dp :: ds)]))
          omega

/-- Under non-negative samples, a larger tick budget can only increase the
final running total (tick-indexed monotonicity of the stream's lifetime). -/
theorem streamLoop_budget_mono (polls : Nat → Option (List DataPoint))
    (hnn : pollsNonneg polls) (sc : Bool) (f : Field) :
    ∀ (k m tick : Nat) (total prev : Snapshot) (trace : List Emission) (ivs : List Snapshot),
      k ≤ m →
      (streamLoop polls sc tick k total prev trace ivs).total f
        ≤ (streamLoop polls sc tick m total prev trace ivs).total f := by
  intro k
  induction k with
  | zero =>
    intro m tick total prev trace ivs _
    simpa [streamLoop] using streamLoop_total_le polls hnn sc f m tick total prev trace ivs
  | succ k ih =>
    intro m tick total prev trace ivs hkm
    cases m with
    | zero => omega
    | succ m =>
      cases hp : polls tick with
      | none => simp [streamLoop, hp]
      | some l =>
        cases l with
        | nil => simp [streamLoop, hp]
        | cons dp ds =>
          cases sc with
          | false =>
            simp only [streamLoop, hp, reduceIte]
            exact ih m (tick + 1) _ _ _ _ (by omega)
          | true =>
            simp only [streamLoop, hp, reduceIte]
            exact ih m (tick + 1) _ _ _ _ (by omega)

/-- A successful `stream_real_time_data` run's totals and interval history
are those of the polling loop started from the zero state. -/
theorem stream_ok_components (budget : Nat) (polls : Nat → Option (List DataPoint))
    (sc so : Bool) (r : StreamResult)
    (h : stream_real_time_data budget polls sc so = Except.ok r) :
    r.total = (streamLoop polls sc 0 budget zeroSnap zeroSnap
        (if sc then [Emission.initial zeroSnap] else []) []).total ∧
      r.intervals = (streamLoop polls sc 0 budget zeroSnap zeroSnap
        (if sc then [Emission.initial zeroSnap] else []) []).intervals := by
  cases sc with
  | false =>
    rw [stream_real_time_data] at h
    simp only [Bool.false_eq_true, if_false] at h
    rw [← Except.ok.inj h]
    exact ⟨rfl, rfl⟩
  | true =>
    cases so with
    | false =>
      rw [stream_real_time_data] at h
      simp at h
    | true =>
      rw [stream_real_time_data] at h
      simp only [if_true] at h
      rw [← Except.ok.inj h]
      exact ⟨rfl, rfl⟩

/-- C7: for every completed or failed stream, each field's running total
equals the sum of the interval snapshots of all processed ticks; and, when
every sampled counter value is non-negative, the running total is
monotonically non-decreasing along the stream's lifetime (a longer tick
budget never decreases it). -/
theorem C7_running_totals (polls : Nat → Option (List DataPoint)) (sc so : Bool)
    (k m : Nat) (r1 r2 : StreamResult) (f : Field)
    (h1 : stream_real_time_data k polls sc so = Except.ok r1)
    (h2 : stream_real_time_data m polls sc so = Except.ok r2) :
    r1.total f = (r1.intervals.map (fun s => s f)).sum ∧
    (pollsNonneg polls → k ≤ m → r1.total f ≤ r2.total f) := by
  obtain ⟨ht1, hi1⟩ := stream_ok_components k polls sc so r1 h1
  obtain ⟨ht2, hi2⟩ := stream_ok_components m polls sc so r2 h2
  constructor
  · obtain ⟨nw, hnw, hsum⟩ := streamLoop_total_eq_sum polls sc k 0 zeroSnap zeroSnap
      (if sc then [Emission.initial zeroSnap] else []) []
    rw [ht1, hi1, hnw, hsum f]
    simp [zeroSnap]
  · intro hnn hkm
    rw [ht1, ht2]
    exact streamLoop_budget_mono polls hnn sc f k m 0 zeroSnap zeroSnap
      (if sc then [Emission.initial zeroSnap] else []) [] hkm

/-- Witness for C7 at a zero-budget console stream with an always-failing
poll oracle: both hypotheses and the non-negativity precondition are
discharged concretely. -/
theorem C7_running_totals_witness :
    (⟨[], [], zeroSnap, zeroSnap, false⟩ : StreamResult).total Field.requests
        = ((⟨[], [], zeroSnap, zeroSnap, false⟩ : StreamResult).intervals.map
            (fun s => s Field.requests)).sum ∧
    (⟨[], [], zeroSnap, zeroSnap, false⟩ : StreamResult).total Field.requests
        ≤ (⟨[], [], zeroSnap, zeroSnap, false⟩ : StreamResult).total Field.requests := by
  have h := C7_running_totals (fun _ => none) false false 0 0
    ⟨[], [], zeroSnap, zeroSnap, false⟩ ⟨[], [], zeroSnap, zeroSnap, false⟩
    Field.requests rfl rfl
  exact ⟨h.1, h.2 (fun t l hl => nomatch hl) le_rfl⟩

/-- With a sink configured, the loop appends only interval updates to the
trace: no finals, ticks strictly increasing, all at least the starting
tick. -/
theorem streamLoop_trace_spec (polls : Nat → Option (List DataPoint)) :
    ∀ (r tick : Nat) (total prev : Snapshot) (trace : List Emission) (ivs : List Snapshot),
      ∃ ext, (streamLoop polls true tick r total prev trace ivs).trace = trace ++ ext ∧
        (∀ e ∈ ext, isFinal e = false) ∧
        (ext.filterMap updateTick).Pairwise (· < ·) ∧
        (∀ t ∈ ext.filterMap updateTick, tick ≤ t) := by
  intro r
  induction r with
  | zero =>
    intro tick total prev trace ivs
    exact ⟨[], by simp [streamLoop], by simp, by simp, by simp⟩
  | succ r ih =>
    intro tick total prev trace ivs
    cases hp : polls tick with
    | none => exact ⟨[], by simp [streamLoop, hp], by simp, by simp, by simp⟩
    | some l =>
      cases l with
      | nil => exact ⟨[], by simp [streamLoop, hp], by simp, by simp, by simp⟩
      | cons dp ds =>
        obtain ⟨ext, hext, hfin, hpw, hged⟩ := ih (tick + 1)
          (fun f => total f + computeInterval (dp :: ds) f) (computeInterval (dp :: ds))
          (trace ++ [Emission.update tick
            (fun f => total f + computeInterval (dp :: ds) f)
            (computeInterval (dp :: ds)) prev])
          (ivs ++ [computeInterval (dp :: ds)])
        refine ⟨Emission.update tick
          (fun f => total f + computeInterval (dp :: ds) f)
          (computeInterval (dp :: ds)) prev :: ext, ?_, ?_, ?_, ?_⟩
        · simp only [streamLoop, hp, reduceIte]
          rw [hext]
          simp
        · intro e he
          rcases List.mem_cons.mp he with rfl | he2
          · rfl
          · exact hfin e he2
        · simp only [List.filterMap_cons, updateTick]
          rw [List.pairwise_cons]
          exact ⟨fun t ht => lt_of_lt_of_le (by omega) (hged t ht), hpw⟩
        · intro t ht
          simp only [List.filterMap_cons, updateTick] at ht
          rcases List.mem_cons.mp ht with rfl | ht2
          · exact le_rfl
          · exact le_trans (by omega) (hged t ht2)

/-- C8: in every stream whose sink session was opened — whether the loop
ends by budget exhaustion or by a failed poll — exactly one final summary is
emitted, it is the last emission of the trace, and the interval updates
before it carry strictly increasing ticks. -/
theorem C8_final_update_last (budget : Nat) (polls : Nat → Option (List DataPoint))
    (r : StreamResult)
    (h : stream_real_time_data budget polls true true = Except.ok r) :
    (r.trace.filter isFinal).length = 1 ∧
    (∃ tt pp, r.trace.getLast? = some (Emission.final tt pp)) ∧
    (r.trace.filterMap updateTick).Pairwise (· < ·) := by
  rw [stream_real_time_data] at h
  simp only [if_true] at h
  obtain ⟨ext, hext, hfin, hpw, _⟩ := streamLoop_trace_spec polls budget 0
    zeroSnap zeroSnap [Emission.initial zeroSnap] []
  have hr : r.trace
      = ([Emission.initial zeroSnap] ++ ext)
        ++ [Emission.final
          (streamLoop polls true 0 budget zeroSnap zeroSnap [Emission.initial zeroSnap] []).total
          (streamLoop polls true 0 budget zeroSnap zeroSnap
            [Emission.initial zeroSnap] []).previous] := by
    rw [← Except.ok.inj h]
    rw [← hext]
  refine ⟨?_, ?_, ?_⟩
  · rw [hr, List.filter_append, List.filter_append]
    have h2 : ext.filter isFinal = [] :=
      List.filter_eq_nil_iff.mpr (fun a ha => by simp [hfin a ha])
    rw [h2]
    simp [isFinal]
  · exact ⟨_, _, by rw [hr, List.getLast?_concat]⟩
  · rw [hr, List.filterMap_append, List.filterMap_append]
    simpa [List.filterMap_cons, updateTick] using hpw

/-- Witness for C8 at a first-tick poll failure with budget 2: the trace is
the initial message followed by the lone final update. -/
theorem C8_final_update_last_witness :
    ((⟨[Emission.initial zeroSnap, Emission.final zeroSnap zeroSnap],
        [], zeroSnap, zeroSnap, true⟩ : StreamResult).trace.filter isFinal).length = 1 ∧
    (∃ tt pp, (⟨[Emission.initial zeroSnap, Emission.final zeroSnap zeroSnap],
        [], zeroSnap, zeroSnap, true⟩ : StreamResult).trace.getLast?
      = some (Emission.final tt pp)) ∧
    ((⟨[Emission.initial zeroSnap, Emission.final zeroSnap zeroSnap],
        [], zeroSnap, zeroSnap, true⟩ : StreamResult).trace.filterMap updateTick).Pairwise
      (· < ·) :=
  C8_final_update_last 2 (fun _ => none)
    ⟨[Emission.initial zeroSnap, Emission.final zeroSnap zeroSnap],
      [], zeroSnap, zeroSnap, true⟩ rfl

/-- C10: a tick whose sample request succeeds with an empty `Data` array is
handled exactly like a failed request: the loop stops immediately in the
failed state without accumulating anything (the guard cannot distinguish the
two), and with a sink the teardown still emits the final update. -/
theorem C10_empty_sample_is_failure (polls polls2 : Nat → Option (List DataPoint))
    (sc : Bool) (tick r budget : Nat) (total prev : Snapshot)
    (trace : List Emission) (ivs : List Snapshot)
    (h1 : polls tick = some []) (h2 : polls2 tick = none) :
    (streamLoop polls sc tick (r + 1) total prev trace ivs
        = ⟨trace, ivs, total, prev, true⟩ ∧
      streamLoop polls sc tick (r + 1) total prev trace ivs
        = streamLoop polls2 sc tick (r + 1) total prev trace ivs) ∧
    (tick = 0 →
      stream_real_time_data (budget + 1) polls true true
        = Except.ok ⟨[Emission.initial zeroSnap, Emission.final zeroSnap zeroSnap],
            [], zeroSnap, zeroSnap, true⟩) := by
  constructor
  · constructor
    · simp [streamLoop, h1]
    · simp [streamLoop, h1, h2]
  · rintro rfl
    rw [stream_real_time_data]
    simp [streamLoop, h1]

/-- Witness for C10 at concrete oracles (always-empty versus always-failing)
and budget 1. -/
theorem C10_empty_sample_is_failure_witness :
    (streamLoop (fun _ => some []) false 0 (0 + 1) zeroSnap zeroSnap [] []
        = ⟨[], [], zeroSnap, zeroSnap, true⟩ ∧
      streamLoop (fun _ => some []) false 0 (0 + 1) zeroSnap zeroSnap [] []
        = streamLoop (fun _ => none) false 0 (0 + 1) zeroSnap zeroSnap [] []) ∧
    (0 = 0 →
      stream_real_time_data (0 + 1) (fun _ => some []) true true
        = Except.ok ⟨[Emission.initial zeroSnap, Emission.final zeroSnap zeroSnap],
            [], zeroSnap, zeroSnap, true⟩) :=
  C10_empty_sample_is_failure (fun _ => some []) (fun _ => none) false 0 0 0
    zeroSnap zeroSnap [] [] rfl rfl

end Fastly
